import Mathlib

/-!
# Verification of `compare_dataframe_columns`

A shallow embedding of `src/code_for_work.py` and proofs about it.

The Python function compares the column names of N dataframes and returns,
for each dataframe (keyed by a caller-supplied or synthesized name), the
sorted list of column names unique to that dataframe, optionally printing
a report to standard output.

Modelling choices:
* a dataframe is represented by its ordered list of column-name strings
  (the only part of a dataframe the function ever reads);
* a Python `set` of strings is represented by a duplicate-free
  `List String`; only membership is ever used before the final `sorted`;
* a Python `dict` is represented by an association list with Python's
  insert-or-replace semantics (replacing keeps the key's position,
  inserting appends at the end), which models insertion-order iteration;
* `print` calls are modelled by returning the list of printed lines
  alongside the result; `raise ValueError` is modelled by `Except.error`
  paired with an empty output (nothing has been printed when the
  validation errors fire).
-/

/-- Python dict assignment `d[k] = v`: replace in place if the key is
present (keeping its position), otherwise append at the end. -/
def dictInsert {α : Type} (d : List (String × α)) (k : String) (v : α) :
    List (String × α) :=
  if k ∈ d.map Prod.fst then
    d.map (fun p => if p.1 = k then (k, v) else p)
  else
    d ++ [(k, v)]

/-- Build a Python dict from a list of key/value pairs (dict comprehension /
repeated assignment): later pairs overwrite earlier ones with the same key. -/
def dictOfList {α : Type} (l : List (String × α)) : List (String × α) :=
  l.foldl (fun d p => dictInsert d p.1 p.2) []

/-- Python dict lookup `d[k]` (as an `Option`; keys are unique in a dict
so the first match is the match). -/
def dictLookup {α : Type} (d : List (String × α)) (k : String) : Option α :=
  (d.find? (fun p => decide (p.1 = k))).map Prod.snd

/-- Default names `df1, df2, ..., dfN` from
`names = [f"df{i+1}" for i in range(len(dataframes))]`. -/
def defaultNames (n : Nat) : List String :=
  (List.range n).map (fun i => "df" ++ Nat.repr (i + 1))

/-- Lines 38-41 of the source: the effective names of a call — the
caller's `names` when provided, else the synthesized `df1..dfN`. -/
def effectiveNames (names : Option (List String)) (n : Nat) : List String :=
  match names with
  | none => defaultNames n
  | some ns => ns

/-- Lowercase hexadecimal digit, for Python's `\xHH` escapes. -/
def hexDigitChar (n : Nat) : Char :=
  if n < 10 then Char.ofNat (48 + n) else Char.ofNat (87 + n)

/-- Python `repr`'s quote choice: single quote, unless the string contains
a single quote and no double quote, in which case double quote. -/
def pyReprQuote (s : String) : Char :=
  if s.data.contains (Char.ofNat 39) && !(s.data.contains '"') then '"'
  else Char.ofNat 39

/-- Python `repr`'s rendering of one character inside a quoted string:
the chosen quote character and backslash are backslash-escaped, tab,
newline and carriage return use their short escapes, the remaining C0
control characters and DEL use `\xHH` (lowercase hex), and every other
character is emitted as-is.  This is exactly CPython's behaviour for
ASCII characters; CPython additionally `\x`/`\u`-escapes non-printable
characters above 0x7f (a Unicode-category lookup this embedding does not
model), which is why the report-format theorem assumes ASCII column
names. -/
def pyReprChar (quote : Char) (c : Char) : String :=
  if c = quote ∨ c = '\\' then String.mk ['\\', c]
  else if c = Char.ofNat 9 then "\\t"
  else if c = Char.ofNat 10 then "\\n"
  else if c = Char.ofNat 13 then "\\r"
  else if c.toNat < 32 ∨ c.toNat = 127 then
    "\\x" ++ String.mk [hexDigitChar (c.toNat / 16), hexDigitChar (c.toNat % 16)]
  else String.singleton c

/-- Python `repr` of a string as it appears inside a printed list:
quote choice, then each character rendered by `pyReprChar`. -/
def pyStrRepr (s : String) : String :=
  String.singleton (pyReprQuote s) ++
    String.join (s.data.map (pyReprChar (pyReprQuote s))) ++
    String.singleton (pyReprQuote s)

/-- Python `str` of a list of strings, e.g. `['C', 'D']`. -/
def pyListRepr (l : List String) : String :=
  "[" ++ String.intercalate ", " (l.map pyStrRepr) ++ "]"

/-- The banner line `"=" * 60`. -/
def bannerLine : String := String.mk (List.replicate 60 '=')

/-- The report printed when `print_results` is true (lines 64-76 of the
source): banner, title, banner, blank line, one line per dataset in result
order, closing banner. -/
def reportLines (unique_columns : List (String × List String)) : List String :=
  [bannerLine, "DATAFRAME COLUMN COMPARISON RESULTS", bannerLine, ""] ++
  unique_columns.map (fun p =>
    if p.2 ≠ [] then
      p.1 ++ " has " ++ pyListRepr p.2 ++ " which are not present in other dataframes"
    else
      p.1 ++ " has no unique columns") ++
  [bannerLine]

/-- Line 44 of the source:
`column_sets = {name: set(df.columns) for name, df in zip(names, dataframes)}`. -/
def columnSetsDict (names : List String) (dataframes : List (List String)) :
    List (String × List String) :=
  dictOfList ((names.zip dataframes).map (fun p => (p.1, p.2.dedup)))

/-- The body of the loop at lines 49-60 of the source, for position `i`:
look up the current columns under `names[i]` in `column_sets`, union the
column sets stored under all `names[j]` with `j ≠ i`, and sort the set
difference. -/
def loopValue (names : List String) (dataframes : List (List String)) (i : Nat) :
    List String :=
  let column_sets := columnSetsDict names dataframes
  let current_cols := (dictLookup column_sets (names.getD i "")).getD []
  let other_cols := (List.range names.length).foldl (fun s j =>
    if i ≠ j then s ∪ (dictLookup column_sets (names.getD j "")).getD [] else s) []
  List.insertionSort (· ≤ ·)
    (current_cols.filter (fun c => decide (c ∉ other_cols)))

/-- The computation of lines 43-61 of the source: build `column_sets` and
then, for each position `i` in `enumerate(zip(names, dataframes))`, store
the sorted unique-column list in the result dict under `names[i]`. -/
def compareBody (names : List String) (dataframes : List (List String)) :
    List (String × List String) :=
  (List.range (names.zip dataframes).length).foldl (fun unique_columns i =>
    dictInsert unique_columns (names.getD i "") (loopValue names dataframes i)) []

/-- Shallow embedding of `compare_dataframe_columns` from
`src/code_for_work.py`.  The first component is the returned dict (or the
`ValueError` message), the second is the list of lines printed to standard
output. -/
def compare_dataframe_columns (dataframes : List (List String))
    (names : Option (List String)) (print_results : Bool) :
    Except String (List (String × List String)) × List String :=
  if dataframes.length < 2 then
    (Except.error "Please provide at least 2 dataframes to compare", [])
  else
    match names with
    | none =>
      let unique_columns := compareBody (defaultNames dataframes.length) dataframes
      (Except.ok unique_columns,
       if print_results then reportLines unique_columns else [])
    | some ns =>
      if ns.length ≠ dataframes.length then
        (Except.error ("Number of names (" ++ Nat.repr ns.length ++
          ") must match number of dataframes (" ++ Nat.repr dataframes.length ++ ")"), [])
      else
        let unique_columns := compareBody ns dataframes
        (Except.ok unique_columns,
         if print_results then reportLines unique_columns else [])

/-- The specification's description of the unique-column list for dataset
`i` (§4.1 Algorithm step 2): the ascending-sorted list of column names
that occur in dataset `i` and in no other dataset. -/
def uniqueColsSpec (dataframes : List (List String)) (i : Nat) : List String :=
  List.insertionSort (· ≤ ·) ((dataframes.getD i []).dedup.filter
    (fun c => decide (∀ j, j < dataframes.length → j ≠ i → c ∉ dataframes.getD j [])))

/-! ## Dictionary lemmas -/

theorem dictInsert_of_not_mem {α : Type} {d : List (String × α)} {k : String}
    (v : α) (h : k ∉ d.map Prod.fst) : dictInsert d k v = d ++ [(k, v)] := by
  simp [dictInsert, h]

theorem mem_of_mem_dictInsert {α : Type} {d : List (String × α)} {k : String}
    {v : α} {p : String × α} (h : p ∈ dictInsert d k v) : p ∈ d ∨ p = (k, v) := by
  unfold dictInsert at h
  split at h
  · rcases List.mem_map.mp h with ⟨q, hq, hqe⟩
    by_cases hk : q.1 = k
    · rw [if_pos hk] at hqe
      exact Or.inr hqe.symm
    · rw [if_neg hk] at hqe
      exact Or.inl (hqe ▸ hq)
  · rcases List.mem_append.mp h with h' | h'
    · exact Or.inl h'
    · exact Or.inr (List.mem_singleton.mp h')

theorem self_mem_map_fst_dictInsert {α : Type} (d : List (String × α))
    (k : String) (v : α) : k ∈ (dictInsert d k v).map Prod.fst := by
  unfold dictInsert
  split
  · next h =>
    rcases List.mem_map.mp h with ⟨q, hq, hqe⟩
    refine List.mem_map.mpr ⟨(k, v), ?_, rfl⟩
    refine List.mem_map.mpr ⟨q, hq, ?_⟩
    simp [hqe]
  · simp

theorem mem_map_fst_dictInsert_of_mem {α : Type} {d : List (String × α)}
    {k' : String} (k : String) (v : α) (h : k' ∈ d.map Prod.fst) :
    k' ∈ (dictInsert d k v).map Prod.fst := by
  unfold dictInsert
  split
  · rcases List.mem_map.mp h with ⟨q, hq, hqe⟩
    by_cases hk : q.1 = k
    · refine List.mem_map.mpr ⟨(k, v), ?_, by simp [← hqe, hk]⟩
      exact List.mem_map.mpr ⟨q, hq, by simp [hk]⟩
    · refine List.mem_map.mpr ⟨q, ?_, hqe⟩
      exact List.mem_map.mpr ⟨q, hq, by simp [hk]⟩
  · simp [h]

theorem foldl_dictInsert_mem {α : Type} (l : List (String × α)) :
    ∀ (d : List (String × α)) (p : String × α),
      p ∈ l.foldl (fun d q => dictInsert d q.1 q.2) d → p ∈ d ∨ p ∈ l := by
  induction l with
  | nil => exact fun d p h => Or.inl h
  | cons q l ih =>
    intro d p h
    rcases ih _ p h with h' | h'
    · rcases mem_of_mem_dictInsert h' with h'' | h''
      · exact Or.inl h''
      · exact Or.inr (by simp [h''])
    · exact Or.inr (List.mem_cons_of_mem _ h')

theorem mem_of_mem_dictOfList {α : Type} {l : List (String × α)} {p : String × α}
    (h : p ∈ dictOfList l) : p ∈ l :=
  (foldl_dictInsert_mem l [] p h).resolve_left (by simp)

theorem mem_map_fst_foldl_dictInsert {α : Type} (l : List (String × α)) :
    ∀ (d : List (String × α)) (k : String),
      k ∈ d.map Prod.fst ∨ k ∈ l.map Prod.fst →
      k ∈ (l.foldl (fun d q => dictInsert d q.1 q.2) d).map Prod.fst := by
  induction l with
  | nil => intro d k h; simpa using h.resolve_right (by simp)
  | cons q l ih =>
    intro d k h
    apply ih
    rcases h with h | h
    · exact Or.inl (mem_map_fst_dictInsert_of_mem _ _ h)
    · by_cases hk : k = q.1
      · exact Or.inl (hk ▸ self_mem_map_fst_dictInsert d q.1 q.2)
      · right; simpa [hk] using h

theorem mem_map_fst_dictOfList {α : Type} {l : List (String × α)} {k : String}
    (h : k ∈ l.map Prod.fst) : k ∈ (dictOfList l).map Prod.fst :=
  mem_map_fst_foldl_dictInsert l [] k (Or.inr h)

theorem dictLookup_eq_const {α : Type} {d : List (String × α)} {k : String} {v0 : α}
    (hmem : k ∈ d.map Prod.fst) (hall : ∀ p ∈ d, p.1 = k → p.2 = v0) :
    dictLookup d k = some v0 := by
  unfold dictLookup
  rcases List.mem_map.mp hmem with ⟨q, hq, hqk⟩
  have hsome : (d.find? (fun p => decide (p.1 = k))).isSome := by
    rw [List.find?_isSome]
    exact ⟨q, hq, by simpa using hqk⟩
  rcases Option.isSome_iff_exists.mp hsome with ⟨p, hp⟩
  have hpk : p.1 = k := by simpa using List.find?_some hp
  have hpd : p ∈ d := List.mem_of_find?_eq_some hp
  rw [hp]
  simp [hall p hpd hpk]

theorem dictLookup_dictOfList_const {α : Type} {l : List (String × α)} {k : String}
    {v0 : α} (hmem : k ∈ l.map Prod.fst) (hall : ∀ p ∈ l, p.1 = k → p.2 = v0) :
    dictLookup (dictOfList l) k = some v0 :=
  dictLookup_eq_const (mem_map_fst_dictOfList hmem)
    (fun p hp => hall p (mem_of_mem_dictOfList hp))

theorem foldl_dictInsert_of_nodup {α : Type} (l : List (String × α)) :
    ∀ d : List (String × α), ((d ++ l).map Prod.fst).Nodup →
      l.foldl (fun d q => dictInsert d q.1 q.2) d = d ++ l := by
  induction l with
  | nil => intro d _; simp
  | cons q l ih =>
    intro d hnd
    have hq : q.1 ∉ d.map Prod.fst := by
      intro hmem
      rw [List.map_append, List.nodup_append] at hnd
      exact hnd.2.2 hmem (by simp)
    rw [List.foldl_cons, dictInsert_of_not_mem _ hq]
    have heq : (d ++ [(q.1, q.2)]) ++ l = d ++ q :: l := by simp
    rw [ih (d ++ [(q.1, q.2)]) (by rw [heq]; exact hnd), heq]

theorem dictOfList_of_nodup {α : Type} {l : List (String × α)}
    (h : (l.map Prod.fst).Nodup) : dictOfList l = l := by
  simpa using foldl_dictInsert_of_nodup l [] (by simpa using h)

theorem dictLookup_nodup_getElem {α : Type} (d : List (String × α))
    (hnd : (d.map Prod.fst).Nodup) :
    ∀ i, (h : i < d.length) → dictLookup d (d[i].1) = some (d[i].2) := by
  induction d with
  | nil => intro i h; simp at h
  | cons q d ih =>
    intro i h
    match i with
    | 0 => simp [dictLookup, List.find?]
    | Nat.succ i =>
      have hi : i < d.length := by simpa using h
      have hkmem : (d[i].1) ∈ d.map Prod.fst :=
        List.mem_map.mpr ⟨d[i], by simp, rfl⟩
      have hq : ¬(q.1 = (d[i].1)) := by
        intro hcontra
        rw [List.map_cons, List.nodup_cons] at hnd
        exact hnd.1 (hcontra ▸ hkmem)
      have hstep : dictLookup (q :: d) (d[i].1) = dictLookup d (d[i].1) := by
        unfold dictLookup
        rw [List.find?_cons_of_neg _ (by simpa using hq)]
      simpa [hstep] using ih (by
        rw [List.map_cons, List.nodup_cons] at hnd
        exact hnd.2) i hi

/-! ## The inner union fold -/

theorem mem_foldl_union {β : Type} [DecidableEq β] (g : Nat → List β) (i : Nat) :
    ∀ (l : List Nat) (s0 : List β) (x : β),
      (x ∈ l.foldl (fun s j => if i ≠ j then s ∪ g j else s) s0 ↔
        x ∈ s0 ∨ ∃ j ∈ l, i ≠ j ∧ x ∈ g j) := by
  intro l
  induction l with
  | nil => simp
  | cons a l ih =>
    intro s0 x
    rw [List.foldl_cons]
    by_cases ha : i ≠ a
    · rw [if_pos ha, ih]
      simp only [List.mem_union_iff, List.mem_cons]
      constructor
      · rintro ((h | h) | ⟨j, hj, hij, hx⟩)
        · exact Or.inl h
        · exact Or.inr ⟨a, Or.inl rfl, ha, h⟩
        · exact Or.inr ⟨j, Or.inr hj, hij, hx⟩
      · rintro (h | ⟨j, (rfl | hj), hij, hx⟩)
        · exact Or.inl (Or.inl h)
        · exact Or.inl (Or.inr hx)
        · exact Or.inr ⟨j, hj, hij, hx⟩
    · rw [if_neg ha, ih]
      push_neg at ha
      constructor
      · rintro (h | ⟨j, hj, hij, hx⟩)
        · exact Or.inl h
        · exact Or.inr ⟨j, List.mem_cons_of_mem _ hj, hij, hx⟩
      · rintro (h | ⟨j, hj, hij, hx⟩)
        · exact Or.inl h
        · rcases List.mem_cons.mp hj with rfl | hj'
          · exact absurd ha hij
          · exact Or.inr ⟨j, hj', hij, hx⟩

/-! ## Structure of `compareBody` -/

theorem compareBody_eq_dictOfList (names : List String)
    (dataframes : List (List String)) :
    compareBody names dataframes =
      dictOfList ((List.range (names.zip dataframes).length).map
        (fun i => (names.getD i "", loopValue names dataframes i))) := by
  unfold compareBody dictOfList
  rw [List.foldl_map]

theorem map_fst_columnPairs (names : List String) (dataframes : List (List String))
    (hlen : names.length ≤ dataframes.length) :
    ((names.zip dataframes).map
      (fun p => (p.1, p.2.dedup))).map Prod.fst = names := by
  rw [List.map_map]
  exact List.map_fst_zip names dataframes hlen

theorem columnSetsDict_of_nodup (names : List String) (dataframes : List (List String))
    (hlen : names.length = dataframes.length) (hnd : names.Nodup) :
    columnSetsDict names dataframes =
      (names.zip dataframes).map (fun p => (p.1, p.2.dedup)) := by
  unfold columnSetsDict
  apply dictOfList_of_nodup
  rw [map_fst_columnPairs names dataframes (le_of_eq hlen)]
  exact hnd

theorem columnSetsDict_lookup (names : List String) (dataframes : List (List String))
    (hlen : names.length = dataframes.length) (hnd : names.Nodup)
    (j : Nat) (hj : j < names.length) :
    dictLookup (columnSetsDict names dataframes) (names.getD j "") =
      some ((dataframes.getD j []).dedup) := by
  rw [columnSetsDict_of_nodup names dataframes hlen hnd]
  have hjd : j < dataframes.length := hlen ▸ hj
  have hzl : (names.zip dataframes).length = names.length := by
    rw [List.length_zip]; omega
  have hjz : j < ((names.zip dataframes).map
      (fun p => (p.1, p.2.dedup))).length := by
    rw [List.length_map]; omega
  have hkeys := map_fst_columnPairs names dataframes (le_of_eq hlen) ▸ hnd
  have := dictLookup_nodup_getElem _ hkeys j hjz
  have hjz' : j < (names.zip dataframes).length := by omega
  rw [List.getElem_map, List.getElem_zip] at this
  rw [List.getD_eq_getElem names "" hj, List.getD_eq_getElem dataframes [] hjd]
  exact this

theorem loopValue_eq_uniqueColsSpec (names : List String)
    (dataframes : List (List String))
    (hlen : names.length = dataframes.length) (hnd : names.Nodup)
    (i : Nat) (hi : i < names.length) :
    loopValue names dataframes i = uniqueColsSpec dataframes i := by
  have hlook : ∀ j, j < names.length →
      (dictLookup (columnSetsDict names dataframes) (names.getD j "")).getD [] =
        (dataframes.getD j []).dedup := by
    intro j hj
    rw [columnSetsDict_lookup names dataframes hlen hnd j hj]
    rfl
  simp only [loopValue]
  rw [hlook i hi]
  unfold uniqueColsSpec
  apply congrArg
  apply List.filter_congr
  intro c hc
  have hmem : c ∈ (List.range names.length).foldl
      (fun s j => if i ≠ j then
        s ∪ (dictLookup (columnSetsDict names dataframes) (names.getD j "")).getD []
        else s) [] ↔
      ∃ j, j < names.length ∧ j ≠ i ∧ c ∈ dataframes.getD j [] := by
    rw [mem_foldl_union]
    constructor
    · rintro (h | ⟨j, hj, hij, hx⟩)
      · cases h
      · have hj' := List.mem_range.mp hj
        rw [hlook j hj'] at hx
        exact ⟨j, hj', Ne.symm hij, List.mem_dedup.mp hx⟩
    · rintro ⟨j, hj, hij, hx⟩
      refine Or.inr ⟨j, List.mem_range.mpr hj, Ne.symm hij, ?_⟩
      rw [hlook j hj]
      exact List.mem_dedup.mpr hx
  rw [decide_eq_decide]
  rw [hmem]
  constructor
  · intro hno j hj hij hx
    exact hno ⟨j, by omega, hij, hx⟩
  · rintro hall ⟨j, hj, hij, hx⟩
    exact hall j (by omega) hij hx

theorem range_map_getD {α : Type} (l : List α) (d : α) :
    (List.range l.length).map (fun i => l.getD i d) = l := by
  apply List.ext_getElem
  · simp
  · intro n h1 h2
    rw [List.getElem_map]
    rw [List.getElem_range]
    exact List.getD_eq_getElem l d h2

theorem compareBody_of_nodup (names : List String) (dataframes : List (List String))
    (hlen : names.length = dataframes.length) (hnd : names.Nodup) :
    compareBody names dataframes =
      (List.range names.length).map
        (fun i => (names.getD i "", uniqueColsSpec dataframes i)) := by
  rw [compareBody_eq_dictOfList]
  have hzl : (names.zip dataframes).length = names.length := by
    rw [List.length_zip]; omega
  rw [hzl]
  have hcong : (List.range names.length).map
      (fun i => (names.getD i "", loopValue names dataframes i)) =
      (List.range names.length).map
      (fun i => (names.getD i "", uniqueColsSpec dataframes i)) := by
    apply List.map_congr_left
    intro i hi
    rw [loopValue_eq_uniqueColsSpec names dataframes hlen hnd i (List.mem_range.mp hi)]
  rw [hcong]
  apply dictOfList_of_nodup
  have hkeys : ((List.range names.length).map
      (fun i => (names.getD i "", uniqueColsSpec dataframes i))).map Prod.fst =
      names := by
    rw [List.map_map]
    exact range_map_getD names ""
  rw [hkeys]
  exact hnd

/-! ## Properties of `uniqueColsSpec` -/

theorem mem_uniqueColsSpec (dataframes : List (List String)) (i : Nat) (x : String) :
    x ∈ uniqueColsSpec dataframes i ↔
      x ∈ dataframes.getD i [] ∧
        ∀ j, j < dataframes.length → j ≠ i → x ∉ dataframes.getD j [] := by
  unfold uniqueColsSpec
  rw [(List.perm_insertionSort _ _).mem_iff]
  simp [List.mem_filter, List.mem_dedup]

theorem uniqueColsSpec_sorted (dataframes : List (List String)) (i : Nat) :
    List.Sorted (· < ·) (uniqueColsSpec dataframes i) := by
  have hs : List.Sorted (· ≤ ·) (uniqueColsSpec dataframes i) := by
    unfold uniqueColsSpec
    exact List.sorted_insertionSort _ _
  have hnd : (uniqueColsSpec dataframes i).Nodup := by
    unfold uniqueColsSpec
    exact (List.perm_insertionSort _ _).nodup_iff.mpr
      (List.Nodup.filter _ (List.nodup_dedup _))
  exact hs.lt_of_le hnd

/-! ## Unfolding `compare_dataframe_columns` on each branch -/

theorem compare_too_few (dataframes : List (List String))
    (names : Option (List String)) (pr : Bool) (h : dataframes.length < 2) :
    compare_dataframe_columns dataframes names pr =
      (Except.error "Please provide at least 2 dataframes to compare", []) := by
  unfold compare_dataframe_columns
  rw [if_pos h]

theorem compare_bad_names (dataframes : List (List String)) (ns : List String)
    (pr : Bool) (h2 : 2 ≤ dataframes.length) (hlen : ns.length ≠ dataframes.length) :
    compare_dataframe_columns dataframes (some ns) pr =
      (Except.error ("Number of names (" ++ Nat.repr ns.length ++
        ") must match number of dataframes (" ++
        Nat.repr dataframes.length ++ ")"), []) := by
  unfold compare_dataframe_columns
  rw [if_neg (by omega)]
  simp only []
  rw [if_pos hlen]

theorem compare_valid_some (dataframes : List (List String)) (ns : List String)
    (pr : Bool) (h2 : 2 ≤ dataframes.length) (hlen : ns.length = dataframes.length) :
    compare_dataframe_columns dataframes (some ns) pr =
      (Except.ok (compareBody ns dataframes),
        if pr then reportLines (compareBody ns dataframes) else []) := by
  unfold compare_dataframe_columns
  rw [if_neg (by omega)]
  simp only []
  rw [if_neg (by simp [hlen])]

theorem compare_valid_none (dataframes : List (List String))
    (pr : Bool) (h2 : 2 ≤ dataframes.length) :
    compare_dataframe_columns dataframes none pr =
      (Except.ok (compareBody (defaultNames dataframes.length) dataframes),
        if pr then reportLines (compareBody (defaultNames dataframes.length) dataframes)
        else []) := by
  unfold compare_dataframe_columns
  rw [if_neg (by omega)]

/-! ## Values of the result are sorted and duplicate-free -/

theorem columnSetsDict_values_nodup (names : List String)
    (dataframes : List (List String)) (k : String) (v : List String)
    (h : dictLookup (columnSetsDict names dataframes) k = some v) : v.Nodup := by
  unfold dictLookup at h
  rcases Option.map_eq_some'.mp h with ⟨q, hq, hqv⟩
  have hqmem := mem_of_mem_dictOfList (List.mem_of_find?_eq_some hq)
  rcases List.mem_map.mp hqmem with ⟨p0, _, hp0⟩
  rw [← hqv, ← hp0]
  exact List.nodup_dedup _

theorem loopValue_sorted (names : List String) (dataframes : List (List String))
    (i : Nat) : List.Sorted (· < ·) (loopValue names dataframes i) := by
  simp only [loopValue]
  have hnd : ((dictLookup (columnSetsDict names dataframes)
      (names.getD i "")).getD []).Nodup := by
    cases hl : dictLookup (columnSetsDict names dataframes) (names.getD i "") with
    | none => simp
    | some v =>
      simpa using columnSetsDict_values_nodup names dataframes _ v hl
  exact List.Sorted.lt_of_le (List.sorted_insertionSort _ _)
    ((List.perm_insertionSort _ _).nodup_iff.mpr (hnd.filter _))

theorem compareBody_values_sorted (names : List String)
    (dataframes : List (List String)) :
    ∀ p ∈ compareBody names dataframes, List.Sorted (· < ·) p.2 := by
  intro p hp
  rw [compareBody_eq_dictOfList] at hp
  rcases List.mem_map.mp (mem_of_mem_dictOfList hp) with ⟨i, _, hpe⟩
  rw [← hpe]
  exact loopValue_sorted names dataframes i

/-! ## Duplicated names collapse to the empty list -/

theorem loopValue_of_dup_name (names : List String) (dataframes : List (List String))
    {i j i' : Nat} (hij : i ≠ j) (hi : i < names.length) (hj : j < names.length)
    (hdup : names.getD i "" = names.getD j "") (hi' : i' < names.length)
    (hni' : names.getD i' "" = names.getD i "") :
    loopValue names dataframes i' = [] := by
  obtain ⟨j', hj', hij', hnj'⟩ : ∃ j', j' < names.length ∧ i' ≠ j' ∧
      names.getD j' "" = names.getD i' "" := by
    by_cases hcase : i' = i
    · refine ⟨j, hj, by omega, ?_⟩
      rw [← hdup, hni']
    · exact ⟨i, hi, hcase, by rw [hni']⟩
  simp only [loopValue]
  have hfilter : (((dictLookup (columnSetsDict names dataframes)
      (names.getD i' "")).getD []).filter
      (fun c => decide (c ∉ (List.range names.length).foldl (fun s j =>
        if i' ≠ j then
          s ∪ (dictLookup (columnSetsDict names dataframes) (names.getD j "")).getD []
        else s) []))) = [] := by
    rw [List.filter_eq_nil_iff]
    intro c hc
    have hcfold : c ∈ (List.range names.length).foldl (fun s j =>
        if i' ≠ j then
          s ∪ (dictLookup (columnSetsDict names dataframes) (names.getD j "")).getD []
        else s) [] := by
      rw [mem_foldl_union]
      refine Or.inr ⟨j', List.mem_range.mpr hj', hij', ?_⟩
      rw [hnj']
      exact hc
    intro hcon
    rw [decide_eq_true_eq] at hcon
    exact hcon hcfold
  rw [hfilter]
  rfl

theorem compareBody_dup_name (names : List String) (dataframes : List (List String))
    (hlen : names.length = dataframes.length)
    {i j : Nat} (hij : i ≠ j) (hi : i < names.length) (hj : j < names.length)
    (hdup : names.getD i "" = names.getD j "") :
    dictLookup (compareBody names dataframes) (names.getD i "") = some [] := by
  rw [compareBody_eq_dictOfList]
  have hzl : (names.zip dataframes).length = names.length := by
    rw [List.length_zip]; omega
  rw [hzl]
  apply dictLookup_dictOfList_const
  · rw [List.map_map]
    exact List.mem_map.mpr ⟨i, List.mem_range.mpr hi, rfl⟩
  · intro p hp hkey
    rcases List.mem_map.mp hp with ⟨i', hi'r, hpe⟩
    have hi'lt := List.mem_range.mp hi'r
    have hname : names.getD i' "" = names.getD i "" := by
      rw [← hpe] at hkey
      exact hkey
    rw [← hpe]
    exact loopValue_of_dup_name names dataframes hij hi hj hdup hi'lt hname

/-! ## Injectivity of the decimal representation (for the default names) -/

/-- Decode a decimal digit string back to the number (proof-side helper). -/
def decodeDigits (l : List Char) : Nat :=
  l.foldl (fun a c => a * 10 + (c.toNat - 48)) 0

theorem decodeDigits_append (l : List Char) (c : Char) :
    decodeDigits (l ++ [c]) = (decodeDigits l) * 10 + (c.toNat - 48) := by
  simp [decodeDigits, List.foldl_append]

theorem digitChar_toNat (d : Nat) (h : d < 10) :
    (Nat.digitChar d).toNat = 48 + d := by
  interval_cases d <;> rfl

theorem toDigitsCore_acc (b : Nat) :
    ∀ (f n : Nat) (ds : List Char),
      Nat.toDigitsCore b f n ds = Nat.toDigitsCore b f n [] ++ ds := by
  intro f
  induction f with
  | zero => intro n ds; simp [Nat.toDigitsCore]
  | succ f ih =>
    intro n ds
    simp only [Nat.toDigitsCore]
    by_cases h : n / b = 0
    · rw [if_pos h, if_pos h]
      rfl
    · rw [if_neg h, if_neg h, ih (n / b) ((n % b).digitChar :: ds),
        ih (n / b) [(n % b).digitChar]]
      simp

theorem decode_toDigitsCore :
    ∀ (f n : Nat), n < f → decodeDigits (Nat.toDigitsCore 10 f n []) = n := by
  intro f
  induction f with
  | zero => intro n h; omega
  | succ f ih =>
    intro n h
    simp only [Nat.toDigitsCore]
    by_cases h10 : n / 10 = 0
    · rw [if_pos h10]
      have hc := digitChar_toNat (n % 10) (by omega)
      simp only [decodeDigits, List.foldl_cons, List.foldl_nil]
      omega
    · rw [if_neg h10]
      rw [toDigitsCore_acc 10 f (n / 10) [(n % 10).digitChar]]
      rw [decodeDigits_append]
      rw [ih (n / 10) (by omega)]
      have hc := digitChar_toNat (n % 10) (by omega)
      omega

theorem natRepr_injective : Function.Injective Nat.repr := by
  intro m n h
  have hdata : Nat.toDigitsCore 10 (m + 1) m [] = Nat.toDigitsCore 10 (n + 1) n [] := by
    have hd := congrArg String.data h
    simpa [Nat.repr, Nat.toDigits, List.asString] using hd
  have hm := decode_toDigitsCore (m + 1) m (by omega)
  have hn := decode_toDigitsCore (n + 1) n (by omega)
  rw [hdata] at hm
  omega

theorem defaultNames_nodup (n : Nat) : (defaultNames n).Nodup := by
  unfold defaultNames
  apply List.Nodup.map
  · intro a b hab
    have hdata := congrArg String.data hab
    rw [String.data_append, String.data_append] at hdata
    have hrepr : (Nat.repr (a + 1)).data = (Nat.repr (b + 1)).data :=
      List.append_cancel_left hdata
    have : Nat.repr (a + 1) = Nat.repr (b + 1) := String.ext hrepr
    have := natRepr_injective this
    omega
  · exact List.nodup_range n

theorem defaultNames_length (n : Nat) : (defaultNames n).length = n := by
  simp [defaultNames]

theorem compareBody_getD (names : List String) (dataframes : List (List String))
    (hlen : names.length = dataframes.length) (hnd : names.Nodup)
    (i : Nat) (hi : i < names.length) :
    (compareBody names dataframes).getD i ("", []) =
      (names.getD i "", uniqueColsSpec dataframes i) := by
  rw [compareBody_of_nodup names dataframes hlen hnd]
  have hlen2 : i < ((List.range names.length).map
      (fun i => (names.getD i "", uniqueColsSpec dataframes i))).length := by
    simpa using hi
  rw [List.getD_eq_getElem _ _ hlen2, List.getElem_map, List.getElem_range]

/-! ## The claims -/

/-- C1: on every call with at least 2 datasets whose effective names —
explicit names of matching length, or the synthesized `df1..dfN` when
`names` is omitted — are distinct, the returned mapping has exactly one
entry per input dataset, keyed by the effective names in input order, and
the value for dataset `i` is the ascending-sorted list of exactly those
column names that occur in dataset `i` and in no other dataset. -/
theorem compare_result_characterization (dataframes : List (List String))
    (names : Option (List String)) (pr : Bool) (h2 : 2 ≤ dataframes.length)
    (hlen : (effectiveNames names dataframes.length).length = dataframes.length)
    (hnd : (effectiveNames names dataframes.length).Nodup) :
    ∃ r out,
      compare_dataframe_columns dataframes names pr = (Except.ok r, out) ∧
      r.map Prod.fst = effectiveNames names dataframes.length ∧
      r.length = dataframes.length ∧
      ∀ i, i < dataframes.length →
        List.Sorted (· < ·) (r.getD i ("", [])).2 ∧
        ∀ x, (x ∈ (r.getD i ("", [])).2 ↔
          (x ∈ dataframes.getD i [] ∧
            ∀ j, j < dataframes.length → j ≠ i → x ∉ dataframes.getD j [])) := by
  have hcmp : compare_dataframe_columns dataframes names pr =
      (Except.ok (compareBody (effectiveNames names dataframes.length) dataframes),
       if pr then
         reportLines (compareBody (effectiveNames names dataframes.length) dataframes)
       else []) := by
    cases names with
    | none => exact compare_valid_none dataframes pr h2
    | some ns => exact compare_valid_some dataframes ns pr h2 hlen
  refine ⟨compareBody (effectiveNames names dataframes.length) dataframes, _,
    hcmp, ?_, ?_, ?_⟩
  · rw [compareBody_of_nodup _ dataframes hlen hnd, List.map_map]
    exact range_map_getD _ ""
  · rw [compareBody_of_nodup _ dataframes hlen hnd]
    simp [hlen]
  · intro i hi
    rw [compareBody_getD _ dataframes hlen hnd i (by omega)]
    exact ⟨uniqueColsSpec_sorted dataframes i, fun x => mem_uniqueColsSpec dataframes i x⟩

/-- C1 witness: the `Sales, Marketing, HR` scenario satisfies the
hypotheses and hence the characterization. -/
theorem compare_result_characterization_witness :
    2 ≤ ([["A", "B", "C"], ["A", "D"], ["A", "B", "E"]] : List (List String)).length ∧
    (effectiveNames (some ["Sales", "Marketing", "HR"])
      ([["A", "B", "C"], ["A", "D"], ["A", "B", "E"]] : List (List String)).length).length =
      ([["A", "B", "C"], ["A", "D"], ["A", "B", "E"]] : List (List String)).length ∧
    (effectiveNames (some ["Sales", "Marketing", "HR"])
      ([["A", "B", "C"], ["A", "D"], ["A", "B", "E"]] : List (List String)).length).Nodup ∧
    (∃ r out,
      compare_dataframe_columns [["A", "B", "C"], ["A", "D"], ["A", "B", "E"]]
        (some ["Sales", "Marketing", "HR"]) false = (Except.ok r, out) ∧
      r.map Prod.fst = effectiveNames (some ["Sales", "Marketing", "HR"])
        ([["A", "B", "C"], ["A", "D"], ["A", "B", "E"]] : List (List String)).length ∧
      r.length = ([["A", "B", "C"], ["A", "D"], ["A", "B", "E"]] : List (List String)).length ∧
      ∀ i, i < ([["A", "B", "C"], ["A", "D"], ["A", "B", "E"]] : List (List String)).length →
        List.Sorted (· < ·) (r.getD i ("", [])).2 ∧
        ∀ x, (x ∈ (r.getD i ("", [])).2 ↔
          (x ∈ [["A", "B", "C"], ["A", "D"], ["A", "B", "E"]].getD i [] ∧
            ∀ j, j < ([["A", "B", "C"], ["A", "D"], ["A", "B", "E"]] : List (List String)).length →
              j ≠ i → x ∉ [["A", "B", "C"], ["A", "D"], ["A", "B", "E"]].getD j []))) :=
  ⟨by decide, by decide, by decide,
    compare_result_characterization [["A", "B", "C"], ["A", "D"], ["A", "B", "E"]]
      (some ["Sales", "Marketing", "HR"]) false (by decide) (by decide) (by decide)⟩

/-- C4: on every valid call with distinct names, each unique-column list
is a subset of its own dataset's columns and disjoint from every other
dataset's columns, and the union of the unique lists together with the
columns appearing in at least 2 datasets reconstructs the union of all
column sets. -/
theorem compare_unique_decomposition (dataframes : List (List String))
    (names : List String) (pr : Bool) (h2 : 2 ≤ dataframes.length)
    (hlen : names.length = dataframes.length) (hnd : names.Nodup) :
    ∃ r out,
      compare_dataframe_columns dataframes (some names) pr = (Except.ok r, out) ∧
      (∀ i, i < dataframes.length → ∀ x ∈ (r.getD i ("", [])).2,
        x ∈ dataframes.getD i [] ∧
        ∀ j, j < dataframes.length → j ≠ i → x ∉ dataframes.getD j []) ∧
      (∀ x, ((∃ i, i < dataframes.length ∧ x ∈ (r.getD i ("", [])).2) ∨
          (∃ j, ∃ k, j < dataframes.length ∧ k < dataframes.length ∧ j ≠ k ∧
            x ∈ dataframes.getD j [] ∧ x ∈ dataframes.getD k [])) ↔
        (∃ i, i < dataframes.length ∧ x ∈ dataframes.getD i [])) := by
  refine ⟨compareBody names dataframes, _,
    compare_valid_some dataframes names pr h2 hlen, ?_, ?_⟩
  · intro i hi x hx
    rw [compareBody_getD names dataframes hlen hnd i (by omega)] at hx
    exact (mem_uniqueColsSpec dataframes i x).mp hx
  · intro x
    constructor
    · rintro (⟨i, hi, hx⟩ | ⟨j, k, hj, hk, hjk, hxj, hxk⟩)
      · rw [compareBody_getD names dataframes hlen hnd i (by omega)] at hx
        exact ⟨i, hi, ((mem_uniqueColsSpec dataframes i x).mp hx).1⟩
      · exact ⟨j, hj, hxj⟩
    · rintro ⟨i, hi, hx⟩
      by_cases hshare : ∃ j, j < dataframes.length ∧ j ≠ i ∧ x ∈ dataframes.getD j []
      · rcases hshare with ⟨j, hj, hji, hxj⟩
        exact Or.inr ⟨j, i, hj, hi, hji, hxj, hx⟩
      · push_neg at hshare
        refine Or.inl ⟨i, hi, ?_⟩
        rw [compareBody_getD names dataframes hlen hnd i (by omega)]
        exact (mem_uniqueColsSpec dataframes i x).mpr ⟨hx, hshare⟩

/-- C4 witness: the decomposition at a concrete input. -/
theorem compare_unique_decomposition_witness :
    2 ≤ ([["A", "B"], ["A", "C"]] : List (List String)).length ∧
    (["u", "v"] : List String).length = ([["A", "B"], ["A", "C"]] : List (List String)).length ∧
    (["u", "v"] : List String).Nodup ∧
    (∃ r out,
      compare_dataframe_columns [["A", "B"], ["A", "C"]] (some ["u", "v"]) false =
        (Except.ok r, out) ∧
      (∀ i, i < ([["A", "B"], ["A", "C"]] : List (List String)).length →
        ∀ x ∈ (r.getD i ("", [])).2,
          x ∈ [["A", "B"], ["A", "C"]].getD i [] ∧
          ∀ j, j < ([["A", "B"], ["A", "C"]] : List (List String)).length → j ≠ i →
            x ∉ [["A", "B"], ["A", "C"]].getD j []) ∧
      (∀ x, ((∃ i, i < ([["A", "B"], ["A", "C"]] : List (List String)).length ∧
            x ∈ (r.getD i ("", [])).2) ∨
          (∃ j, ∃ k, j < ([["A", "B"], ["A", "C"]] : List (List String)).length ∧
            k < ([["A", "B"], ["A", "C"]] : List (List String)).length ∧ j ≠ k ∧
            x ∈ [["A", "B"], ["A", "C"]].getD j [] ∧ x ∈ [["A", "B"], ["A", "C"]].getD k [])) ↔
        (∃ i, i < ([["A", "B"], ["A", "C"]] : List (List String)).length ∧
          x ∈ [["A", "B"], ["A", "C"]].getD i []))) :=
  ⟨by decide, by decide, by decide,
    compare_unique_decomposition [["A", "B"], ["A", "C"]] ["u", "v"] false
      (by decide) (by decide) (by decide)⟩

/-- C6: with `names` omitted and at least 2 datasets, the result keys are
`df1, df2, ..., dfN` in input order. -/
theorem compare_default_names (dataframes : List (List String)) (pr : Bool)
    (h2 : 2 ≤ dataframes.length) :
    ∃ r out,
      compare_dataframe_columns dataframes none pr = (Except.ok r, out) ∧
      r.map Prod.fst =
        (List.range dataframes.length).map (fun i => "df" ++ Nat.repr (i + 1)) := by
  refine ⟨_, _, compare_valid_none dataframes pr h2, ?_⟩
  rw [compareBody_of_nodup _ _ (defaultNames_length _) (defaultNames_nodup _),
    List.map_map, defaultNames_length]
  have := range_map_getD (defaultNames dataframes.length) ""
  rw [defaultNames_length] at this
  calc (List.range dataframes.length).map
        (Prod.fst ∘ fun i => ((defaultNames dataframes.length).getD i "",
          uniqueColsSpec dataframes i))
      = (List.range dataframes.length).map
          (fun i => (defaultNames dataframes.length).getD i "") := rfl
    _ = defaultNames dataframes.length := this
    _ = (List.range dataframes.length).map (fun i => "df" ++ Nat.repr (i + 1)) := rfl

/-- C6 witness: two datasets, omitted names, keys `df1, df2`. -/
theorem compare_default_names_witness :
    2 ≤ ([["A"], ["B"]] : List (List String)).length ∧
    (∃ r out,
      compare_dataframe_columns [["A"], ["B"]] none false = (Except.ok r, out) ∧
      r.map Prod.fst =
        (List.range ([["A"], ["B"]] : List (List String)).length).map
          (fun i => "df" ++ Nat.repr (i + 1))) :=
  ⟨by decide, compare_default_names [["A"], ["B"]] false (by decide)⟩

/-- C2: fewer than 2 datasets fails with the "at least 2" error; an
explicit names sequence of the wrong length fails with the count-mismatch
error; every other input succeeds; and nothing is printed when an error is
raised, even with the report enabled. -/
theorem compare_error_handling (dataframes : List (List String))
    (names : Option (List String)) (ns : List String) (pr : Bool) :
    (dataframes.length < 2 →
      compare_dataframe_columns dataframes names pr =
        (Except.error "Please provide at least 2 dataframes to compare", [])) ∧
    (2 ≤ dataframes.length → ns.length ≠ dataframes.length →
      compare_dataframe_columns dataframes (some ns) pr =
        (Except.error ("Number of names (" ++ Nat.repr ns.length ++
          ") must match number of dataframes (" ++
          Nat.repr dataframes.length ++ ")"), [])) ∧
    (2 ≤ dataframes.length →
      (names = none ∨ ∃ ms, names = some ms ∧ ms.length = dataframes.length) →
      ∃ r out, compare_dataframe_columns dataframes names pr = (Except.ok r, out)) := by
  refine ⟨fun h => compare_too_few dataframes names pr h,
    fun h2 hlen => compare_bad_names dataframes ns pr h2 hlen, ?_⟩
  rintro h2 (rfl | ⟨ms, rfl, hlen⟩)
  · exact ⟨_, _, compare_valid_none dataframes pr h2⟩
  · exact ⟨_, _, compare_valid_some dataframes ms pr h2 hlen⟩

/-- C2 witness: both error scenarios and a success scenario, concretely. -/
theorem compare_error_handling_witness :
    (([["A"]] : List (List String)).length < 2 ∧
      compare_dataframe_columns [["A"]] none true =
        (Except.error "Please provide at least 2 dataframes to compare", [])) ∧
    (2 ≤ ([["A"], ["B"]] : List (List String)).length ∧
      (["x"] : List String).length ≠ ([["A"], ["B"]] : List (List String)).length ∧
      compare_dataframe_columns [["A"], ["B"]] (some ["x"]) true =
        (Except.error ("Number of names (" ++ Nat.repr (["x"] : List String).length ++
          ") must match number of dataframes (" ++
          Nat.repr ([["A"], ["B"]] : List (List String)).length ++ ")"), [])) :=
  ⟨⟨by decide, (compare_error_handling [["A"]] none ["x"] true).1 (by decide)⟩,
   ⟨by decide, by decide,
    (compare_error_handling [["A"], ["B"]] none ["x"] true).2.1 (by decide) (by decide)⟩⟩

/-- C10: when both preconditions are violated at once (fewer than 2
datasets and a names sequence of non-matching length), the "at least 2
datasets" error is the one raised: the dataset-count check runs first. -/
theorem compare_count_check_first (dataframes : List (List String))
    (ns : List String) (pr : Bool) (h1 : dataframes.length < 2)
    (h2 : ns.length ≠ dataframes.length) :
    compare_dataframe_columns dataframes (some ns) pr =
      (Except.error "Please provide at least 2 dataframes to compare", []) :=
  compare_too_few dataframes (some ns) pr h1

/-- C10 witness: one dataset with two names raises the dataset-count error. -/
theorem compare_count_check_first_witness :
    ([["A"]] : List (List String)).length < 2 ∧
    (["x", "y"] : List String).length ≠ ([["A"]] : List (List String)).length ∧
    compare_dataframe_columns [["A"]] (some ["x", "y"]) true =
      (Except.error "Please provide at least 2 dataframes to compare", []) :=
  ⟨by decide, by decide,
    compare_count_check_first [["A"]] ["x", "y"] true (by decide) (by decide)⟩

/-- C9: every call that passes the two precondition checks terminates
normally with a result (total, no runtime failure after validation). -/
theorem compare_total_on_valid (dataframes : List (List String))
    (names : Option (List String)) (pr : Bool) (h2 : 2 ≤ dataframes.length)
    (hnames : names = none ∨ ∃ ns, names = some ns ∧ ns.length = dataframes.length) :
    ∃ r out, compare_dataframe_columns dataframes names pr = (Except.ok r, out) := by
  rcases hnames with rfl | ⟨ns, rfl, hlen⟩
  · exact ⟨_, _, compare_valid_none dataframes pr h2⟩
  · exact ⟨_, _, compare_valid_some dataframes ns pr h2 hlen⟩

/-- C9 witness: a concrete valid call returns a result. -/
theorem compare_total_on_valid_witness :
    2 ≤ ([["A"], ["A"]] : List (List String)).length ∧
    (∃ r out, compare_dataframe_columns [["A"], ["A"]] none true =
      (Except.ok r, out)) :=
  ⟨by decide, compare_total_on_valid [["A"], ["A"]] none true (by decide) (Or.inl rfl)⟩

/-- C7: the returned mapping is identical whether the report is enabled or
not, and with the report disabled nothing is printed (on every input,
valid or not). -/
theorem compare_report_flag_frame (dataframes : List (List String))
    (names : Option (List String)) :
    (compare_dataframe_columns dataframes names true).1 =
      (compare_dataframe_columns dataframes names false).1 ∧
    (compare_dataframe_columns dataframes names false).2 = [] := by
  by_cases h2 : dataframes.length < 2
  · rw [compare_too_few dataframes names true h2, compare_too_few dataframes names false h2]
    exact ⟨rfl, rfl⟩
  · push_neg at h2
    cases names with
    | none =>
      rw [compare_valid_none dataframes true h2, compare_valid_none dataframes false h2]
      exact ⟨rfl, rfl⟩
    | some ns =>
      by_cases hlen : ns.length = dataframes.length
      · rw [compare_valid_some dataframes ns true h2 hlen,
          compare_valid_some dataframes ns false h2 hlen]
        exact ⟨rfl, rfl⟩
      · rw [compare_bad_names dataframes ns true h2 hlen,
          compare_bad_names dataframes ns false h2 hlen]
        exact ⟨rfl, rfl⟩

/-- C8: when the report is enabled on a valid call, the printed text is
exactly: a banner of 60 equals signs, the title line, a second banner, a
blank line, then one line per dataset in result order (the "has {list}"
form when the unique list is non-empty, the "has no unique columns" form
when it is empty), followed by a closing banner.  The `{list}` part uses
`pyListRepr`, which coincides with Python's `repr`-based list rendering
exactly on ASCII strings; the `hascii` hypothesis confines the statement
to that regime, since Python escapes non-printable characters above 0x7f
by a Unicode-category lookup this embedding does not model. -/
theorem compare_report_format (dataframes : List (List String))
    (names : Option (List String)) (r : List (String × List String))
    (out : List String)
    (hascii : ∀ df ∈ dataframes, ∀ col ∈ df, ∀ ch ∈ col.data, ch.toNat < 128)
    (h : compare_dataframe_columns dataframes names true = (Except.ok r, out)) :
    out = [String.mk (List.replicate 60 '='),
           "DATAFRAME COLUMN COMPARISON RESULTS",
           String.mk (List.replicate 60 '='), ""] ++
      r.map (fun p =>
        if p.2 ≠ [] then
          p.1 ++ " has " ++ pyListRepr p.2 ++
            " which are not present in other dataframes"
        else p.1 ++ " has no unique columns") ++
      [String.mk (List.replicate 60 '=')] := by
  by_cases h2 : dataframes.length < 2
  · rw [compare_too_few dataframes names true h2] at h
    have := congrArg Prod.fst h
    simp at this
  · push_neg at h2
    cases names with
    | none =>
      rw [compare_valid_none dataframes true h2, if_pos rfl] at h
      have hr : compareBody (defaultNames dataframes.length) dataframes = r := by
        have := congrArg Prod.fst h
        simpa using this
      have hout : reportLines (compareBody (defaultNames dataframes.length) dataframes)
          = out := congrArg Prod.snd h
      rw [← hout, hr]
      rfl
    | some ns =>
      by_cases hlen : ns.length = dataframes.length
      · rw [compare_valid_some dataframes ns true h2 hlen, if_pos rfl] at h
        have hr : compareBody ns dataframes = r := by
          have := congrArg Prod.fst h
          simpa using this
        have hout : reportLines (compareBody ns dataframes) = out :=
          congrArg Prod.snd h
        rw [← hout, hr]
        rfl
      · rw [compare_bad_names dataframes ns true h2 hlen] at h
        have := congrArg Prod.fst h
        simp at this

/-- C8 witness: the report printed for two two-column datasets with
default names, line by line. -/
theorem compare_report_format_witness :
    ([String.mk (List.replicate 60 '='),
      "DATAFRAME COLUMN COMPARISON RESULTS",
      String.mk (List.replicate 60 '='), "",
      "df1 has ['A'] which are not present in other dataframes",
      "df2 has no unique columns",
      String.mk (List.replicate 60 '=')] : List String) =
      [String.mk (List.replicate 60 '='),
       "DATAFRAME COLUMN COMPARISON RESULTS",
       String.mk (List.replicate 60 '='), ""] ++
      ([("df1", ["A"]), ("df2", [])] : List (String × List String)).map (fun p =>
        if p.2 ≠ [] then
          p.1 ++ " has " ++ pyListRepr p.2 ++
            " which are not present in other dataframes"
        else p.1 ++ " has no unique columns") ++
      [String.mk (List.replicate 60 '=')] :=
  compare_report_format [["A", "B"], ["B"]] none [("df1", ["A"]), ("df2", [])]
    ([String.mk (List.replicate 60 '='),
      "DATAFRAME COLUMN COMPARISON RESULTS",
      String.mk (List.replicate 60 '='), "",
      "df1 has ['A'] which are not present in other dataframes",
      "df2 has no unique columns",
      String.mk (List.replicate 60 '=')]) (by decide) rfl

/-- C5: on every call that returns a mapping, each value list is strictly
ascending in lexicographic order with no duplicate entries, even when a
dataset's column sequence contains the same name more than once. -/
theorem compare_values_sorted_nodup (dataframes : List (List String))
    (names : Option (List String)) (pr : Bool) (r : List (String × List String))
    (out : List String)
    (h : compare_dataframe_columns dataframes names pr = (Except.ok r, out)) :
    ∀ p ∈ r, List.Sorted (· < ·) p.2 ∧ p.2.Nodup := by
  have hbody : ∃ ens, compareBody ens dataframes = r := by
    by_cases h2 : dataframes.length < 2
    · rw [compare_too_few dataframes names pr h2] at h
      have := congrArg Prod.fst h
      simp at this
    · push_neg at h2
      cases names with
      | none =>
        rw [compare_valid_none dataframes pr h2] at h
        have := congrArg Prod.fst h
        exact ⟨defaultNames dataframes.length, by simpa using this⟩
      | some ns =>
        by_cases hlen : ns.length = dataframes.length
        · rw [compare_valid_some dataframes ns pr h2 hlen] at h
          have := congrArg Prod.fst h
          exact ⟨ns, by simpa using this⟩
        · rw [compare_bad_names dataframes ns pr h2 hlen] at h
          have := congrArg Prod.fst h
          simp at this
  rcases hbody with ⟨ens, hens⟩
  intro p hp
  rw [← hens] at hp
  have hs := compareBody_values_sorted ens dataframes p hp
  exact ⟨hs, hs.nodup⟩

/-- C5 witness: a dataset with a duplicated column name still yields
sorted, duplicate-free value lists. -/
theorem compare_values_sorted_nodup_witness :
    List.Sorted (· < ·) (("df1", ["A"]) : String × List String).2 ∧
      (("df1", ["A"]) : String × List String).2.Nodup :=
  compare_values_sorted_nodup [["A", "A", "B"], ["B", "B"]] none false
    [("df1", ["A"]), ("df2", [])] [] rfl ("df1", ["A"]) (by decide)

/-- C3 counterexample: with datasets `[["A"], ["B"], ["C"]]` and duplicated
names `["x", "x", "y"]`, the call succeeds but the entry stored under the
repeated name `"x"` is `[]`, which is not the unique-column list computed
for the last dataset supplied under `"x"` (dataset index 1, columns
`["B"]`, whose unique-column list per the spec's algorithm is `["B"]`). -/
theorem compare_dup_name_counterexample :
    compare_dataframe_columns [["A"], ["B"], ["C"]] (some ["x", "x", "y"]) false =
      (Except.ok [("x", []), ("y", ["C"])], []) ∧
    uniqueColsSpec [["A"], ["B"], ["C"]] 1 = ["B"] ∧
    (([] : List String) ≠ ["B"]) :=
  ⟨rfl, rfl, by decide⟩

/-- C3 amended: with duplicated names (and both preconditions satisfied)
the call still succeeds and the duplicated keys silently collide into a
single entry, but the value stored under a repeated name is always the
empty list: every occurrence of the name looks up the last same-named
dataset's column set in `column_sets`, and that same set is also counted
among the other datasets' columns, so the difference is empty. -/
theorem compare_dup_name_empty (dataframes : List (List String))
    (ns : List String) (pr : Bool) (h2 : 2 ≤ dataframes.length)
    (hlen : ns.length = dataframes.length) (i j : Nat) (hij : i ≠ j)
    (hi : i < ns.length) (hj : j < ns.length)
    (hdup : ns.getD i "" = ns.getD j "") :
    ∃ r out,
      compare_dataframe_columns dataframes (some ns) pr = (Except.ok r, out) ∧
      dictLookup r (ns.getD i "") = some [] :=
  ⟨_, _, compare_valid_some dataframes ns pr h2 hlen,
    compareBody_dup_name ns dataframes hlen hij hi hj hdup⟩

/-- C3 amended witness: the duplicated name `"x"` maps to `[]`. -/
theorem compare_dup_name_empty_witness :
    2 ≤ ([["A"], ["B"], ["C"]] : List (List String)).length ∧
    (["x", "x", "y"] : List String).length =
      ([["A"], ["B"], ["C"]] : List (List String)).length ∧
    (0 : Nat) ≠ 1 ∧ 0 < (["x", "x", "y"] : List String).length ∧
    1 < (["x", "x", "y"] : List String).length ∧
    (["x", "x", "y"] : List String).getD 0 "" =
      (["x", "x", "y"] : List String).getD 1 "" ∧
    (∃ r out,
      compare_dataframe_columns [["A"], ["B"], ["C"]] (some ["x", "x", "y"]) false =
        (Except.ok r, out) ∧
      dictLookup r ((["x", "x", "y"] : List String).getD 0 "") = some []) :=
  ⟨by decide, by decide, by decide, by decide, by decide, by decide,
    compare_dup_name_empty [["A"], ["B"], ["C"]] ["x", "x", "y"] false (by decide)
      (by decide) 0 1 (by decide) (by decide) (by decide) (by decide)⟩
